import Mathlib

/-!
Shallow embedding of the core of the ProximaCA/token-dashboard repository:
the transfer classifiers, the market-metric calculators, the off-market
sales analyzer, the block-timestamp resolver, the endpoint selector, the
chunked range scanner and the orchestration pipeline, together with
theorems settling the frozen claims about them.

Conventions of the embedding:
* ethers BigNumber values (token amounts, total supplies) are arbitrary
  precision non-negative integers, modelled as Nat;
* JavaScript floating point numbers are modelled exactly: values that stay
  finite are exact rationals, and where the source can produce Infinity or
  NaN through division the JsNum type below mirrors the IEEE special
  values (rounding of doubles is not modelled; no claim here depends on a
  comparison closer than one part in 2^50);
* remote calls (RPC probes, block fetches, log queries) are modelled by
  explicit environments: a field of the environment gives the outcome
  (some result, or none for a failure or timeout) of each remote call the
  code can make, and stateful caches are threaded explicitly.
-/

namespace TokenDashboard

/-! ## Kernel-computable rational arithmetic

The arithmetic of the rational numbers that ships with the library is
marked irreducible, which blocks evaluation of concrete witnesses by the
kernel. The operations below compute the same rationals through mkRat,
numerators and denominators, all of which the kernel evaluates; the
lemmas following them identify each operation with the library one, so
proofs can reason with ordinary algebra. -/

/-- Exact rational addition through mkRat. -/
def qAdd (a b : ℚ) : ℚ := mkRat (a.num * b.den + b.num * a.den) (a.den * b.den)

/-- Exact rational subtraction through mkRat. -/
def qSub (a b : ℚ) : ℚ := mkRat (a.num * b.den - b.num * a.den) (a.den * b.den)

/-- Exact rational multiplication through mkRat. -/
def qMul (a b : ℚ) : ℚ := mkRat (a.num * b.num) (a.den * b.den)

/-- Exact rational division through divInt; division by zero gives zero,
as in the library. -/
def qDiv (a b : ℚ) : ℚ := Rat.divInt (a.num * b.den) (a.den * b.num)

theorem qAdd_eq (a b : ℚ) : qAdd a b = a + b := by
  have ha : (a.den : ℚ) ≠ 0 := by positivity
  have hb : (b.den : ℚ) ≠ 0 := by positivity
  rw [qAdd, Rat.mkRat_eq_div]
  push_cast
  conv_rhs => rw [← Rat.num_div_den a, ← Rat.num_div_den b]
  rw [div_add_div _ _ ha hb]
  ring_nf

theorem qSub_eq (a b : ℚ) : qSub a b = a - b := by
  have ha : (a.den : ℚ) ≠ 0 := by positivity
  have hb : (b.den : ℚ) ≠ 0 := by positivity
  rw [qSub, Rat.mkRat_eq_div]
  push_cast
  conv_rhs => rw [← Rat.num_div_den a, ← Rat.num_div_den b]
  rw [div_sub_div _ _ ha hb]
  ring_nf

theorem qMul_eq (a b : ℚ) : qMul a b = a * b := by
  rw [qMul, Rat.mkRat_eq_div]
  push_cast
  conv_rhs => rw [← Rat.num_div_den a, ← Rat.num_div_den b]
  rw [div_mul_div_comm]

theorem qDiv_eq (a b : ℚ) : qDiv a b = a / b := by
  rw [qDiv, Rat.divInt_eq_div]
  push_cast
  rcases eq_or_ne b 0 with hb | hb
  · subst hb; simp
  · have ha : (a.den : ℚ) ≠ 0 := by positivity
    have hbn : (b.num : ℚ) ≠ 0 := by
      exact_mod_cast Rat.num_ne_zero.mpr hb
    have hbd : (b.den : ℚ) ≠ 0 := by positivity
    conv_rhs => rw [← Rat.num_div_den a, ← Rat.num_div_den b]
    field_simp

/-! ## JavaScript number model -/

/-- A JavaScript number: an exact finite rational, or one of the IEEE
special values Infinity, -Infinity, NaN that the source can produce by
dividing by zero. -/
inductive JsNum where
  | fin : ℚ → JsNum
  | inf : JsNum
  | ninf : JsNum
  | nan : JsNum
deriving DecidableEq, Repr

namespace JsNum

/-- IEEE-style addition (finite arithmetic is exact). -/
def add : JsNum → JsNum → JsNum
  | nan, _ => nan
  | _, nan => nan
  | fin a, fin b => fin (qAdd a b)
  | fin _, inf => inf
  | inf, fin _ => inf
  | fin _, ninf => ninf
  | ninf, fin _ => ninf
  | inf, inf => inf
  | ninf, ninf => ninf
  | inf, ninf => nan
  | ninf, inf => nan

/-- IEEE-style multiplication (finite arithmetic is exact; zero times an
infinity is NaN). -/
def mul : JsNum → JsNum → JsNum
  | nan, _ => nan
  | _, nan => nan
  | fin a, fin b => fin (qMul a b)
  | fin a, inf => if a = 0 then nan else if 0 < a then inf else ninf
  | inf, fin a => if a = 0 then nan else if 0 < a then inf else ninf
  | fin a, ninf => if a = 0 then nan else if 0 < a then ninf else inf
  | ninf, fin a => if a = 0 then nan else if 0 < a then ninf else inf
  | inf, inf => inf
  | ninf, ninf => inf
  | inf, ninf => ninf
  | ninf, inf => ninf

/-- IEEE-style division: a nonzero finite value divided by zero is a
signed infinity, zero by zero is NaN (the rational zero plays the role of
a positive zero). -/
def div : JsNum → JsNum → JsNum
  | nan, _ => nan
  | _, nan => nan
  | fin a, fin b =>
      if b = 0 then (if a = 0 then nan else if 0 < a then inf else ninf)
      else fin (qDiv a b)
  | fin _, inf => fin 0
  | fin _, ninf => fin 0
  | inf, fin b => if 0 ≤ b then inf else ninf
  | ninf, fin b => if 0 ≤ b then ninf else inf
  | inf, inf => nan
  | inf, ninf => nan
  | ninf, inf => nan
  | ninf, ninf => nan

/-- Whether a JavaScript number is finite (Number.isFinite). -/
def isFinite : JsNum → Bool
  | fin _ => true
  | _ => false

/-- Addition of two finite JavaScript numbers is exact rational
addition. -/
theorem fin_add (a b : ℚ) : (fin a).add (fin b) = fin (a + b) := by
  show fin (qAdd a b) = fin (a + b)
  rw [qAdd_eq]

/-- Multiplication of two finite JavaScript numbers is exact rational
multiplication. -/
theorem fin_mul (a b : ℚ) : (fin a).mul (fin b) = fin (a * b) := by
  show fin (qMul a b) = fin (a * b)
  rw [qMul_eq]

end JsNum

/-! ## Transfer classifiers

Embeddings of isLargeTransferCheck (src/unnamed/part_005, lines 220-242)
and isLargeTransfer (src/app/utils/formatting.ts, lines 291-316). Both
take the transfer amount and the total supply as the non-negative
integers that the decimal strings of the source denote. -/

/-- Largest integer that ethers BigNumber.toNumber returns without
throwing an overflow error (Number.MAX_SAFE_INTEGER). -/
def maxSafeInteger : ℕ := 9007199254740991

/-- Embedding of isLargeTransferCheck (src/unnamed/part_005, lines
220-242), the classifier the pipeline applies to each transfer. The
source computes valueBN.mul(100).div(totalSupplyBN).toNumber() / 100 and
compares the result with the threshold 0.005; the BigNumber division
truncates, and toNumber throws (caught, giving false) beyond the safe
integer range. -/
def isLargeTransferCheck (value totalSupply : ℕ) : Bool :=
  if totalSupply = 0 then false
  else
    let q : ℕ := value * 100 / totalSupply
    if maxSafeInteger < q then false
    else decide (mkRat 5 1000 ≤ mkRat q 100)

/-- Embedding of isLargeTransfer (src/app/utils/formatting.ts, lines
291-316), the standalone classifier: the threshold value is
totalSupply * floor(0.5 * 10) / 1000 = totalSupply * 5 / 1000 with
truncating BigNumber division, and the transfer is large when the amount
is at least that threshold. -/
def isLargeTransfer (value totalSupply : ℕ) : Bool :=
  if totalSupply = 0 then false
  else
    let thresholdValue : ℕ := totalSupply * 5 / 1000
    decide (thresholdValue ≤ value)

/-- Modelled from the spec: the classification formula the spec states
for both classifiers, amount * 1000 / totalSupply >= 5 under truncating
integer division, and false on zero total supply. Used only to compare
the classifiers of the source against the words of the spec. -/
def largePerSpec (value totalSupply : ℕ) : Bool :=
  if totalSupply = 0 then false
  else decide (5 ≤ value * 1000 / totalSupply)

/-! ## Data model

Embeddings of the TokenInfo and TokenTransfer records of
src/app/types/token (reconstructed from their uses in src/unnamed/part_005
and src/app/utils/formatting.ts). Amounts are the non-negative integers
denoted by the decimal strings of the source. -/

/-- Token descriptor as assembled by getTokenInfo. -/
structure TokenInfo where
  name : String
  symbol : String
  decimals : ℕ
  totalSupply : ℕ
  isERC20Compliant : Bool
deriving DecidableEq, Repr

/-- One processed transfer record as built by processTransferEvents. -/
structure TokenTransfer where
  transactionHash : String
  fromAddr : String
  toAddr : String
  value : ℕ
  timestamp : ℤ
  isLargeTransfer : Bool
deriving DecidableEq, Repr

/-! ## Market-metric calculators (src/app/utils/formatting.ts) -/

/-- The rational that parseFloat(ethers.utils.formatUnits(amount,
decimals)) denotes: amount divided by ten to the decimals. -/
def toDecimalAmount (amount decimals : ℕ) : ℚ := mkRat amount (10 ^ decimals)

/-- Embedding of calculateMarketCap (src/app/utils/formatting.ts, lines
321-333): the decimal-adjusted total supply times the price. -/
def calculateMarketCap (totalSupply decimals : ℕ) (price : ℚ) : ℚ :=
  qMul (toDecimalAmount totalSupply decimals) price

/-- Embedding of calculateFullyDilutedCap (src/app/utils/formatting.ts,
lines 339-354): uses the max supply when one is given, the total supply
otherwise. -/
def calculateFullyDilutedCap (totalSupply decimals : ℕ) (price : ℚ)
    (maxSupply : Option ℕ) : ℚ :=
  qMul (toDecimalAmount (maxSupply.getD totalSupply) decimals) price

/-- Embedding of calculateMarketCapDifference (src/app/utils/formatting.ts,
lines 360-371): the dilution delta, and the percentage of it relative to
the market cap, zero when the market cap is not positive. -/
def calculateMarketCapDifference (marketCap fullyDilutedCap : ℚ) : ℚ × ℚ :=
  let difference := qSub fullyDilutedCap marketCap
  (difference, if 0 < marketCap then qMul (qDiv difference marketCap) 100 else 0)

/-! ## Off-market sales analyzer (src/app/utils/formatting.ts, lines
377-469)

The helper isBelowMarketPrice consults Math.random and the wall clock, so
the per-transfer outcome of the below-market classification is modelled
as an oracle passed in as a function from the transfer to a Boolean; every
theorem about the analyzer quantifies over all oracles. -/

/-- Result record of analyzeOffMarketSales. -/
structure OffMarket where
  abovePrice : JsNum
  belowPrice : JsNum
  percentage : JsNum
  volumeUSD : JsNum
deriving DecidableEq, Repr

/-- One iteration of the accumulation loop of analyzeOffMarketSales:
state is (total volume, above-price volume, below-price volume) in
tokens; the transfer adds its decimal-adjusted amount to the total and to
exactly one of the two buckets, chosen by the below-market oracle. -/
def offMarketStep (isBelowPrice : TokenTransfer → Bool) (decimals : ℕ)
    (st : JsNum × JsNum × JsNum) (t : TokenTransfer) : JsNum × JsNum × JsNum :=
  let amt : JsNum := .fin (toDecimalAmount t.value decimals)
  (st.1.add amt,
   if isBelowPrice t then (st.2.1, st.2.2.add amt) else (st.2.1.add amt, st.2.2))

/-- The accumulation loop of analyzeOffMarketSales over the large-transfer
subset, starting from zeroes. -/
def offMarketFold (isBelowPrice : TokenTransfer → Bool) (decimals : ℕ)
    (transfers : List TokenTransfer) : JsNum × JsNum × JsNum :=
  transfers.foldl (offMarketStep isBelowPrice decimals) (.fin 0, .fin 0, .fin 0)

/-- Embedding of analyzeOffMarketSales (src/app/utils/formatting.ts, lines
377-442). Only the empty transfer list and a non-positive price are
guarded; the divisions by the market cap and by the decimal-adjusted total
supply are not, and follow the IEEE rules of JsNum. -/
def analyzeOffMarketSales (isBelowPrice : TokenTransfer → Bool)
    (transfers : List TokenTransfer) (tokenInfo : TokenInfo)
    (currentPrice : ℚ) : OffMarket :=
  if transfers.isEmpty || decide (currentPrice ≤ 0) then
    ⟨.fin 0, .fin 0, .fin 0, .fin 0⟩
  else
    let largeOnly := transfers.filter (·.isLargeTransfer)
    let totalSupplyTokens : JsNum :=
      .fin (toDecimalAmount tokenInfo.totalSupply tokenInfo.decimals)
    let st := offMarketFold isBelowPrice tokenInfo.decimals largeOnly
    let totalVolumeUSD := st.1.mul (.fin currentPrice)
    let marketCap : JsNum :=
      .fin (calculateMarketCap tokenInfo.totalSupply tokenInfo.decimals currentPrice)
    let abovePricePercent := ((st.2.1.mul (.fin currentPrice)).div marketCap).mul (.fin 100)
    let belowPricePercent := ((st.2.2.mul (.fin currentPrice)).div marketCap).mul (.fin 100)
    let totalPercentage := (st.1.div totalSupplyTokens).mul (.fin 100)
    ⟨abovePricePercent, belowPricePercent, totalPercentage, totalVolumeUSD⟩

/-! ## Block-timestamp resolver (src/unnamed/part_005, lines 247-325)

A block carries its number, its timestamp, and whether its timestamp is
an estimate (the source marks estimated fallback blocks by an
"estimated-" hash; the Boolean below is that marker). The resolver takes
an explicit environment: the outcome of the block fetch on each of the
three attempts, the outcome of the fetch of the latest block, and the
wall clock in milliseconds. The result carries the resolved block, the
cache after the call, and the number of remote calls performed. -/

/-- A block as the resolver sees it. -/
structure Block where
  number : ℤ
  timestamp : ℤ
  estimated : Bool
deriving DecidableEq, Repr

/-- The process-wide block cache, an association list from block number
to cached block. -/
abbrev BlockCache := List (ℕ × Block)

/-- Cache lookup (Map.has / Map.get). -/
def lookupBlock (cache : BlockCache) (blockNumber : ℕ) : Option Block :=
  (cache.find? (fun p => p.1 = blockNumber)).map (·.2)

/-- Cache insertion (Map.set). -/
def insertBlock (cache : BlockCache) (blockNumber : ℕ) (b : Block) : BlockCache :=
  (blockNumber, b) :: cache

/-- Outcomes of the remote calls one resolution of one block can make:
the block fetch on attempt 1, 2 or 3 (none is a failure or timeout), the
fetch of the latest block, and Date.now in milliseconds. -/
structure ResolveEnv where
  attemptResult : ℕ → Option Block
  latest : Option Block
  nowMs : ℕ
deriving Inhabited

/-- Seconds-per-block constant of the estimation fallback. -/
def secondsPerBlock : ℤ := 13

/-- Embedding of getBlockWithRetries (src/unnamed/part_005, lines
251-325) at its default of three attempts: cache hit returns as-is with
no remote call; otherwise up to three fetch attempts, a success being
cached and returned; on exhaustion a fallback block is synthesized from
the latest block (or from the wall clock when that fetch also fails) and
returned WITHOUT being cached, exactly as in the source. The third
component counts remote calls (three failed attempts plus the latest
fetch on the fallback path). -/
def getBlockWithRetries (env : ResolveEnv) (cache : BlockCache)
    (blockNumber : ℕ) : Block × BlockCache × ℕ :=
  match lookupBlock cache blockNumber with
  | some b => (b, cache, 0)
  | none =>
    match env.attemptResult 1 with
    | some b => (b, insertBlock cache blockNumber b, 1)
    | none =>
      match env.attemptResult 2 with
      | some b => (b, insertBlock cache blockNumber b, 2)
      | none =>
        match env.attemptResult 3 with
        | some b => (b, insertBlock cache blockNumber b, 3)
        | none =>
          let fallback : Block :=
            match env.latest with
            | some head =>
                ⟨blockNumber, head.timestamp - (head.number - blockNumber) * secondsPerBlock, true⟩
            | none =>
                ⟨blockNumber, (env.nowMs / 1000 : ℕ) - 1000 * secondsPerBlock, true⟩
          (fallback, cache, 4)

/-! ## Endpoint selector (src/unnamed/part_005, lines 45-149)

The probe models the liveness test (getBlockNumber under a five second
timeout): it maps an endpoint URL to whether connecting to it succeeds.
The selector returns the ordered list of endpoints actually attempted,
the endpoint that succeeded (if any), and the last-successful record for
the network after the call. -/

/-- Candidate construction of tryConnectToNetwork: the last-successful
endpoint first when present, then the primary, then the fallbacks, each
skipped when already in the list. -/
def buildCandidates (lastSuccessful : Option String) (primary : String)
    (fallbacks : List String) : List String :=
  let l1 : List String := match lastSuccessful with | some u => [u] | none => []
  let l2 : List String := if primary ∈ l1 then l1 else l1 ++ [primary]
  fallbacks.foldl (fun acc u => if u ∈ acc then acc else acc ++ [u]) l2

/-- Modelled from the spec: removal of duplicates from a list keeping the
first occurrence of each element, used only to compare the candidate
construction of the source with the words of the spec. -/
def dedupFirstSeen (l : List String) : List String :=
  l.foldl (fun acc u => if u ∈ acc then acc else acc ++ [u]) []

/-- The probe loop of tryConnectToNetwork: attempts the candidates in
order, stopping at the first success; returns the attempted prefix and
the successful endpoint, if any. -/
def tryEndpoints (probe : String → Bool) : List String → List String × Option String
  | [] => ([], none)
  | u :: rest =>
    if probe u then ([u], some u)
    else
      let r := tryEndpoints probe rest
      (u :: r.1, r.2)

/-- Embedding of tryConnectToNetwork (src/unnamed/part_005, lines 51-149):
builds the candidate list, probes it in order, and on success records the
successful endpoint as last-successful for the chain; on total failure
the last-successful record is left unchanged (the source only assigns it
after a successful probe). Result: (attempted endpoints, successful
endpoint if any, last-successful record after the call). -/
def tryConnectToNetwork (probe : String → Bool) (lastSuccessful : Option String)
    (primary : String) (fallbacks : List String) :
    List String × Option String × Option String :=
  let candidates := buildCandidates lastSuccessful primary fallbacks
  let r := tryEndpoints probe candidates
  (r.1, r.2, match r.2 with | some u => some u | none => lastSuccessful)

/-! ## Chunked range scanner (src/unnamed/part_005, lines 530-576)

The scan loop runs chunkStart from fromBlock while chunkStart <
currentBlock in steps of the chunk size, each chunk covering
[chunkStart, min(currentBlock, chunkStart + chunkSize - 1)]. Both loops
below are written with a fuel argument bounding the number of remaining
iterations so that the kernel can evaluate them; the fuel never runs out
before the loop condition fails, because every iteration consumes one
unit of fuel and advances chunkStart by the chunk size, which is at
least one. -/

/-- A raw transfer log entry (an ethers Event with the three Transfer
arguments). -/
structure Event where
  transactionHash : String
  fromAddr : String
  toAddr : String
  value : ℕ
  blockNumber : ℕ
deriving DecidableEq, Repr

/-- The chunk boundaries the scan loop generates, with the chunk size
generalized from the constant 10000 of the source to a parameter c
(src/unnamed/part_005, lines 538-539). -/
def chunkLoopF (c toBlock : ℕ) : ℕ → ℕ → List (ℕ × ℕ)
  | 0, _ => []
  | fuel + 1, chunkStart =>
    if chunkStart < toBlock then
      (chunkStart, min toBlock (chunkStart + c - 1)) :: chunkLoopF c toBlock fuel (chunkStart + c)
    else []

/-- The chunks the scan loop generates over [fromBlock, toBlock] with
chunk size c. -/
def chunkLoop (c fromBlock toBlock : ℕ) : List (ℕ × ℕ) :=
  chunkLoopF c toBlock (toBlock - fromBlock) fromBlock

/-- The event-collecting scan loop of fetchTokenData (src/unnamed/part_005,
lines 538-576) at the chunk size 10000 of the source: a chunk whose query
fails is skipped; a chunk whose query succeeds has its events appended,
and the loop breaks once the accumulator holds strictly more than 2000
events. -/
def scanChunksF (chunk : ℕ → ℕ → Option (List Event)) (toBlock : ℕ) :
    ℕ → ℕ → List Event → List Event
  | 0, _, acc => acc
  | fuel + 1, chunkStart, acc =>
    if chunkStart < toBlock then
      match chunk chunkStart (min toBlock (chunkStart + 9999)) with
      | some events =>
        let acc2 := acc ++ events
        if 2000 < acc2.length then acc2
        else scanChunksF chunk toBlock fuel (chunkStart + 10000) acc2
      | none => scanChunksF chunk toBlock fuel (chunkStart + 10000) acc
    else acc

/-- All events the scan over [fromBlock, toBlock) collects. The fuel
(toBlock - fromBlock + 9999) / 10000 is exactly the number of iterations
of the source loop, each of which advances chunkStart by 10000, so the
fuel runs out exactly when the loop condition chunkStart < toBlock
fails. -/
def scanChunks (chunk : ℕ → ℕ → Option (List Event)) (fromBlock toBlock : ℕ) :
    List Event :=
  scanChunksF chunk toBlock ((toBlock - fromBlock + 9999) / 10000) fromBlock []

/-! ## Event processing (src/unnamed/part_005, lines 331-401) -/

/-- Distinct block numbers in order of first appearance (the source
groups events into a record keyed by block number; the resulting cache
does not depend on the key order, so first-appearance order stands in for
the ascending key order of JavaScript records). -/
def dedupKeepFirst (l : List ℕ) : List ℕ :=
  l.foldl (fun acc n => if n ∈ acc then acc else acc ++ [n]) []

/-- Embedding of processTransferEvents (src/unnamed/part_005, lines
331-401): pre-warms the block cache for every distinct block number of
the events (the batching in groups of 20 only bounds concurrency and is
modelled as the sequential fold it amounts to under the cooperative
scheduler), then converts each event to a TokenTransfer using
getBlockWithRetries for its timestamp and isLargeTransferCheck for its
large flag. Returns the transfers and the cache after the calls. -/
def processTransferEvents (resolve : ℕ → ResolveEnv) (cache : BlockCache)
    (events : List Event) (tokenInfo : TokenInfo) :
    List TokenTransfer × BlockCache :=
  if events.isEmpty then ([], cache)
  else
    let blockNumbers := dedupKeepFirst (events.map (·.blockNumber))
    let cache1 := blockNumbers.foldl
      (fun c bn => (getBlockWithRetries (resolve bn) c bn).2.1) cache
    events.foldl
      (fun st ev =>
        let rb := getBlockWithRetries (resolve ev.blockNumber) st.2 ev.blockNumber
        (st.1 ++ [{ transactionHash := ev.transactionHash, fromAddr := ev.fromAddr,
                    toAddr := ev.toAddr, value := ev.value, timestamp := rb.1.timestamp,
                    isLargeTransfer := isLargeTransferCheck ev.value tokenInfo.totalSupply }],
         rb.2.1))
      ([], cache1)

/-- Stable insertion of a transfer into a list sorted by descending
timestamp (a transfer moves ahead only of strictly older entries),
modelling the stable comparator sort of the source. -/
def insertByTimestampDesc (t : TokenTransfer) : List TokenTransfer → List TokenTransfer
  | [] => [t]
  | u :: us =>
    if u.timestamp < t.timestamp then t :: u :: us else u :: insertByTimestampDesc t us

/-- Stable sort by descending timestamp (the sort of line 585 of
src/unnamed/part_005). -/
def sortByTimestampDesc : List TokenTransfer → List TokenTransfer
  | [] => []
  | t :: ts => insertByTimestampDesc t (sortByTimestampDesc ts)

/-- Assembly of the transfer lists of fetchTokenData (src/unnamed/part_005,
lines 580-589): when no events were collected both lists stay empty;
otherwise the processed transfers are sorted by descending timestamp and
the large list is the filter of the large flag. Returns (recentTransfers,
largeTransfers). -/
def assembleTransfers (resolve : ℕ → ResolveEnv) (cache : BlockCache)
    (events : List Event) (tokenInfo : TokenInfo) :
    List TokenTransfer × List TokenTransfer :=
  if events.isEmpty then ([], [])
  else
    let sorted := sortByTimestampDesc (processTransferEvents resolve cache events tokenInfo).1
    (sorted, sorted.filter (·.isLargeTransfer))

/-! ## Orchestration pipeline (src/unnamed/part_005, lines 406-635) -/

/-- Market data attached to a result (the TokenMarketData record). -/
structure TokenMarketData where
  price : ℚ
  marketCap : ℚ
  fullyDilutedCap : ℚ
  marketCapDifference : ℚ
  marketCapDifferencePercent : ℚ
  offMarketSalesAbove : Option JsNum := none
  offMarketSalesBelow : Option JsNum := none
  offMarketSalesPercentage : Option JsNum := none
deriving DecidableEq, Repr

/-- The aggregate result of one pipeline run. -/
structure TokenMetrics where
  tokenInfo : TokenInfo
  marketData : Option TokenMarketData
  recentTransfers : List TokenTransfer
  largeTransfers : List TokenTransfer
deriving DecidableEq, Repr

/-- Final assembly of the result record (src/unnamed/part_005, lines
605-634): when market data and a positive price are present and large
transfers were found, the off-market analysis is run and its three
figures attached to the market data; pair holds (recentTransfers,
largeTransfers) as produced by assembleTransfers. -/
def assembleMetrics (isBelowPrice : TokenTransfer → Bool) (tokenInfo : TokenInfo)
    (marketData : Option TokenMarketData) (priceUsd : Option ℚ)
    (pair : List TokenTransfer × List TokenTransfer) : TokenMetrics :=
  let finalMarketData : Option TokenMarketData :=
    match marketData, priceUsd with
    | some md, some p =>
      if 0 < p ∧ pair.2 ≠ [] then
        let r := analyzeOffMarketSales isBelowPrice pair.2 tokenInfo p
        some { md with offMarketSalesAbove := some r.abovePrice,
                       offMarketSalesBelow := some r.belowPrice,
                       offMarketSalesPercentage := some r.percentage }
      else some md
    | some md, none => some md
    | none, _ => none
  { tokenInfo := tokenInfo, marketData := finalMarketData,
    recentTransfers := pair.1, largeTransfers := pair.2 }

/-- Blocks-per-day constant of the range determination. -/
def blocksPerDay : ℕ := 6500

/-- Days of lookback of the range determination. -/
def daysToLookBack : ℕ := 30

/-- Outcomes of every remote interaction one pipeline run can perform:
whether the connection attempt i of the outer retry loop succeeds,
the token-descriptor fetch, the current-block-number fetch, the
log query of each chunk, and the resolver environment per block number. -/
structure FetchEnv where
  connectOk : ℕ → Bool
  tokenInfo : Option TokenInfo
  currentBlock : Option ℕ
  chunk : ℕ → ℕ → Option (List Event)
  resolve : ℕ → ResolveEnv

/-- Embedding of fetchTokenData (src/unnamed/part_005, lines 406-635).
Failure points, in order: the three connection attempts (throw after the
third failure), the token-descriptor fetch (throw on failure), and the
current-block-number fetch (throw on failure). Everything after the
current block is obtained is failure-tolerant: chunk errors are skipped
by the scan, block resolution always produces a block, and the off-market
analysis is pure. The transfer lists are sorted by descending timestamp
and largeTransfers is the filter of the large flag. -/
def fetchTokenData (env : FetchEnv) (isBelowPrice : TokenTransfer → Bool)
    (cache : BlockCache) (priceUsd : Option ℚ) : Except String TokenMetrics :=
  if env.connectOk 1 || env.connectOk 2 || env.connectOk 3 then
    match env.tokenInfo with
    | none => .error "Failed to retrieve token information"
    | some tokenInfo =>
      let marketData : Option TokenMarketData :=
        match priceUsd with
        | some p =>
          if 0 < p then
            let marketCap := calculateMarketCap tokenInfo.totalSupply tokenInfo.decimals p
            let fullyDilutedCap :=
              calculateFullyDilutedCap tokenInfo.totalSupply tokenInfo.decimals p none
            let d := calculateMarketCapDifference marketCap fullyDilutedCap
            some { price := p, marketCap := marketCap, fullyDilutedCap := fullyDilutedCap,
                   marketCapDifference := d.1, marketCapDifferencePercent := d.2 }
          else none
        | none => none
      match env.currentBlock with
      | none => .error "Failed to get current block"
      | some currentBlock =>
        let fromBlock := currentBlock - blocksPerDay * daysToLookBack
        let allEvents := scanChunks env.chunk fromBlock currentBlock
        .ok (assembleMetrics isBelowPrice tokenInfo marketData priceUsd
              (assembleTransfers env.resolve cache allEvents tokenInfo))
  else .error "Failed to connect to network after 3 attempts"

/-! ## Helper lemmas -/

theorem lookupBlock_insert (cache : BlockCache) (bn : ℕ) (b : Block) :
    lookupBlock (insertBlock cache bn b) bn = some b := by
  simp [lookupBlock, insertBlock, List.find?_cons_of_pos]

/-! ## Claim C1 -/

/-- C1: the claim states that both classifiers decide
amount * 1000 / totalSupply >= 5 under integer division. The code
contradicts its own threshold documentation instead: isLargeTransferCheck
truncates value*100/totalSupply to a whole percent before comparing, so a
transfer of 0.6 percent of supply (value 6, supply 1000) is not flagged
although the formula flags it; and isLargeTransfer compares against the
truncated threshold supply*5/1000, so a zero-value transfer with supply 1
is flagged although the formula does not flag it. -/
theorem claim1_classifier_formula_eval :
    isLargeTransferCheck 6 1000 = false ∧ largePerSpec 6 1000 = true ∧
    isLargeTransfer 0 1 = true ∧ largePerSpec 0 1 = false := by
  decide

/-! ## Claim C6 -/

/-- Concrete transfer used for the division-by-zero evaluation: one unit
of a token with zero recorded total supply, already flagged large. -/
def transferValueOne : TokenTransfer :=
  { transactionHash := "0xh1", fromAddr := "0xaaaa", toAddr := "0xbbbb",
    value := 1, timestamp := 0, isLargeTransfer := true }

/-- Token descriptor with totalSupply zero. -/
def zeroSupplyInfo : TokenInfo :=
  { name := "Token", symbol := "TKN", decimals := 18, totalSupply := 0,
    isERC20Compliant := true }

/-- C6: the claim states every division of the market-metric computations
is guarded so the results stay finite. analyzeOffMarketSales only guards
the empty transfer list and a non-positive price: with totalSupply zero, a
non-empty transfer list and price 1 it divides the bucket volumes by a
zero market cap and the total volume by a zero supply, producing Infinity
in the above-price and percentage fields. -/
theorem claim6_unguarded_division_eval :
    (analyzeOffMarketSales (fun _ => false) [transferValueOne] zeroSupplyInfo 1).abovePrice
      = JsNum.inf ∧
    (analyzeOffMarketSales (fun _ => false) [transferValueOne] zeroSupplyInfo 1).percentage
      = JsNum.inf ∧
    ((analyzeOffMarketSales (fun _ => false) [transferValueOne] zeroSupplyInfo 1).abovePrice.isFinite
      = false) := by
  decide

/-! ## Claim C7 -/

/-- C7: when the cache misses and all three fetch attempts fail, the
resolver returns (it cannot throw) an estimated block whose timestamp is
head.timestamp - (head.number - blockNumber) * 13 when the head fetch
succeeds, and the wall-clock proxy floor(nowMs/1000) - 1000*13 when the
head fetch also fails. -/
theorem claim7_estimation_fallback (env : ResolveEnv) (cache : BlockCache)
    (blockNumber : ℕ)
    (hcache : lookupBlock cache blockNumber = none)
    (h1 : env.attemptResult 1 = none)
    (h2 : env.attemptResult 2 = none)
    (h3 : env.attemptResult 3 = none) :
    (getBlockWithRetries env cache blockNumber).1 =
      match env.latest with
      | some head =>
          ⟨blockNumber, head.timestamp - (head.number - blockNumber) * secondsPerBlock, true⟩
      | none =>
          ⟨blockNumber, (env.nowMs / 1000 : ℕ) - 1000 * secondsPerBlock, true⟩ := by
  unfold getBlockWithRetries
  rw [hcache, h1, h2, h3]

/-- Resolver environment in which every remote call fails except the head
fetch, which returns block 10 at timestamp 200. -/
def resolveEnvDown : ResolveEnv :=
  { attemptResult := fun _ => none, latest := some ⟨10, 200, false⟩, nowMs := 0 }

/-- Witness for C7: with every attempt failing and head block 10 at
timestamp 200, block 5 resolves to the estimate 200 - 5*13 = 135. -/
theorem claim7_estimation_fallback_witness :
    (getBlockWithRetries resolveEnvDown [] 5).1 = ⟨5, 135, true⟩ := by
  rw [claim7_estimation_fallback resolveEnvDown [] 5 rfl rfl rfl rfl]
  decide

/-! ## Claim C2 -/

/-- C2 (amended): resolution is idempotent when the first resolution was
answered from the cache or succeeded remotely within its three attempts:
any second resolution, under any environment, returns the same block with
the cache unchanged and zero remote calls. (The fallback path of a failed
first resolution does not cache its estimate, so the claim as stated is
false; see the counterexample.) -/
theorem claim2_idempotent_after_success (env env2 : ResolveEnv) (cache : BlockCache)
    (blockNumber : ℕ)
    (h : (lookupBlock cache blockNumber).isSome ∨ (env.attemptResult 1).isSome ∨
         (env.attemptResult 2).isSome ∨ (env.attemptResult 3).isSome) :
    getBlockWithRetries env2 (getBlockWithRetries env cache blockNumber).2.1 blockNumber =
      ((getBlockWithRetries env cache blockNumber).1,
       (getBlockWithRetries env cache blockNumber).2.1, 0) := by
  unfold getBlockWithRetries
  cases hl : lookupBlock cache blockNumber with
  | some b => simp [hl]
  | none =>
    cases ha1 : env.attemptResult 1 with
    | some b => simp [hl, ha1, lookupBlock_insert]
    | none =>
      cases ha2 : env.attemptResult 2 with
      | some b => simp [hl, ha1, ha2, lookupBlock_insert]
      | none =>
        cases ha3 : env.attemptResult 3 with
        | some b => simp [hl, ha1, ha2, ha3, lookupBlock_insert]
        | none => simp [hl, ha1, ha2, ha3] at h

/-- Resolver environment that answers the first attempt with block 5 at
timestamp 999. -/
def resolveEnvUp : ResolveEnv :=
  { attemptResult := fun _ => some ⟨5, 999, false⟩, latest := none, nowMs := 0 }

/-- Witness for C2 (amended): after a successful first resolution of
block 7, a second resolution returns the identical block with no remote
call. -/
theorem claim2_idempotent_after_success_witness :
    getBlockWithRetries resolveEnvUp (getBlockWithRetries resolveEnvUp [] 7).2.1 7 =
      ((getBlockWithRetries resolveEnvUp [] 7).1,
       (getBlockWithRetries resolveEnvUp [] 7).2.1, 0) :=
  claim2_idempotent_after_success resolveEnvUp resolveEnvUp [] 7 (Or.inr (Or.inl (by decide)))

/-- Counterexample to C2 as stated: resolving block 5 while every fetch
fails falls back to the estimate with timestamp 135 and leaves the cache
empty, so the second resolution of the same block performs four remote
calls again (the claim demands zero) and, under an environment whose
fetch now succeeds, returns timestamp 999 instead of 135. -/
theorem claim2_counterexample :
    (getBlockWithRetries resolveEnvDown [] 5).1.timestamp = 135 ∧
    (getBlockWithRetries resolveEnvDown [] 5).2.1 = [] ∧
    (getBlockWithRetries resolveEnvDown
        (getBlockWithRetries resolveEnvDown [] 5).2.1 5).2.2 = 4 ∧
    (getBlockWithRetries resolveEnvUp
        (getBlockWithRetries resolveEnvDown [] 5).2.1 5).1.timestamp = 999 := by
  decide

/-! ## Claim C8 -/

theorem tryEndpoints_spec (probe : String → Bool) :
    ∀ l : List String,
      tryEndpoints probe l =
        (l.takeWhile (fun u => !probe u) ++ (l.dropWhile (fun u => !probe u)).take 1,
         l.find? probe) := by
  intro l
  induction l with
  | nil => rfl
  | cons u rest ih =>
    by_cases hp : probe u
    · simp [tryEndpoints, hp, List.find?_cons_of_pos, List.takeWhile_cons, List.dropWhile_cons]
    · simp [tryEndpoints, hp, List.find?_cons_of_neg, List.takeWhile_cons, List.dropWhile_cons, ih]

theorem dedupStep_nodup (l : List String) :
    ∀ acc : List String, acc.Nodup →
      (l.foldl (fun acc u => if u ∈ acc then acc else acc ++ [u]) acc).Nodup := by
  induction l with
  | nil => intro acc h; exact h
  | cons u rest ih =>
    intro acc h
    by_cases hm : u ∈ acc
    · simpa [hm] using ih acc h
    · have : (acc ++ [u]).Nodup := by simp [List.nodup_append, h, hm]
      simpa [hm] using ih (acc ++ [u]) this

theorem buildCandidates_nodup (lastSuccessful : Option String) (primary : String)
    (fallbacks : List String) :
    (buildCandidates lastSuccessful primary fallbacks).Nodup := by
  apply dedupStep_nodup
  cases lastSuccessful with
  | none => simp
  | some u =>
    by_cases h : primary ∈ [u]
    · rw [if_pos h]; simp
    · rw [if_neg h]
      simp only [List.mem_singleton] at h
      have hne : u ≠ primary := fun he => h he.symm
      simp [List.nodup_cons, hne]

theorem buildCandidates_eq_dedup (lastSuccessful : Option String) (primary : String)
    (fallbacks : List String) :
    buildCandidates lastSuccessful primary fallbacks =
      dedupFirstSeen (lastSuccessful.toList ++ primary :: fallbacks) := by
  cases lastSuccessful <;>
    simp [buildCandidates, dedupFirstSeen, List.foldl_append, List.foldl_cons]

/-- C8: endpoint selection is deterministic and ordered. The candidate
list equals the first-seen deduplication of (last-successful endpoint,
primary endpoint, fallbacks) in that order and holds no duplicates; the
endpoints actually attempted are exactly the failing prefix of the
candidates followed by the first succeeding candidate, if any; the
returned endpoint is the first candidate that succeeds; and the
last-successful record is set to that endpoint on success and left
unchanged on total failure. -/
theorem claim8_endpoint_selection (probe : String → Bool)
    (lastSuccessful : Option String) (primary : String) (fallbacks : List String) :
    buildCandidates lastSuccessful primary fallbacks =
      dedupFirstSeen (lastSuccessful.toList ++ primary :: fallbacks) ∧
    (buildCandidates lastSuccessful primary fallbacks).Nodup ∧
    (tryConnectToNetwork probe lastSuccessful primary fallbacks).1 =
      (buildCandidates lastSuccessful primary fallbacks).takeWhile (fun u => !probe u) ++
      ((buildCandidates lastSuccessful primary fallbacks).dropWhile (fun u => !probe u)).take 1 ∧
    (tryConnectToNetwork probe lastSuccessful primary fallbacks).2.1 =
      (buildCandidates lastSuccessful primary fallbacks).find? probe ∧
    (tryConnectToNetwork probe lastSuccessful primary fallbacks).2.2 =
      (match (buildCandidates lastSuccessful primary fallbacks).find? probe with
       | some u => some u
       | none => lastSuccessful) := by
  refine ⟨buildCandidates_eq_dedup _ _ _, buildCandidates_nodup _ _ _, ?_, ?_, ?_⟩ <;>
    simp [tryConnectToNetwork, tryEndpoints_spec]

/-! ## Claim C3 -/

/-- C3 (amended): the pipeline fails only while connecting, while
fetching the token descriptor, or while fetching the current block number
at the start of range determination; whenever those three succeed, every
later stage is failure-tolerant and the run ends in a result. -/
theorem claim3_late_stages_never_fail (env : FetchEnv)
    (isBelowPrice : TokenTransfer → Bool) (cache : BlockCache) (priceUsd : Option ℚ)
    (hconnect : (env.connectOk 1 || env.connectOk 2 || env.connectOk 3) = true)
    (hinfo : env.tokenInfo.isSome) (hblock : env.currentBlock.isSome) :
    ∃ m, fetchTokenData env isBelowPrice cache priceUsd = Except.ok m := by
  obtain ⟨ti, hti⟩ := Option.isSome_iff_exists.mp hinfo
  obtain ⟨cb, hcb⟩ := Option.isSome_iff_exists.mp hblock
  unfold fetchTokenData
  rw [if_pos hconnect, hti, hcb]
  exact ⟨_, rfl⟩

/-- Resolver environment in which every remote call fails. -/
def resolveEnvNone : ResolveEnv :=
  { attemptResult := fun _ => none, latest := none, nowMs := 0 }

/-- Token descriptor used by the pipeline environments below. -/
def tokenInfoSample : TokenInfo :=
  { name := "Token", symbol := "TKN", decimals := 18, totalSupply := 1000,
    isERC20Compliant := true }

/-- Pipeline environment in which connection and descriptor fetch succeed
but the current-block-number fetch fails. -/
def fetchEnvNoHead : FetchEnv :=
  { connectOk := fun _ => true, tokenInfo := some tokenInfoSample,
    currentBlock := none, chunk := fun _ _ => none, resolve := fun _ => resolveEnvNone }

/-- Counterexample to C3 as stated: in fetchEnvNoHead the connection
succeeds and the token descriptor is fetched, yet the pipeline still
fails, from the current-block fetch of range determination. -/
theorem claim3_counterexample :
    fetchTokenData fetchEnvNoHead (fun _ => false) [] none =
      Except.error "Failed to get current block" := by
  rfl

/-- Pipeline environment in which connection, descriptor and current
block all succeed and every later remote call fails. -/
def fetchEnvOk : FetchEnv :=
  { connectOk := fun _ => true, tokenInfo := some tokenInfoSample,
    currentBlock := some 0, chunk := fun _ _ => none, resolve := fun _ => resolveEnvNone }

/-- Witness for C3 (amended): in fetchEnvOk the pipeline reaches a
result. -/
theorem claim3_late_stages_never_fail_witness :
    ∃ m, fetchTokenData fetchEnvOk (fun _ => false) [] none = Except.ok m :=
  claim3_late_stages_never_fail fetchEnvOk (fun _ => false) [] none rfl rfl rfl

/-! ## Claim C9 -/

theorem assembleTransfers_snd (resolve : ℕ → ResolveEnv) (cache : BlockCache)
    (events : List Event) (tokenInfo : TokenInfo) :
    (assembleTransfers resolve cache events tokenInfo).2 =
      (assembleTransfers resolve cache events tokenInfo).1.filter (·.isLargeTransfer) := by
  unfold assembleTransfers
  split <;> simp

/-- C9: in every result the pipeline produces, the large-transfer list is
the filter of the large flag over the recent-transfer list, hence an
order-preserving subsequence consisting exactly of the flagged
transfers. -/
theorem claim9_large_is_filter (env : FetchEnv) (isBelowPrice : TokenTransfer → Bool)
    (cache : BlockCache) (priceUsd : Option ℚ) (m : TokenMetrics)
    (h : fetchTokenData env isBelowPrice cache priceUsd = Except.ok m) :
    m.largeTransfers = m.recentTransfers.filter (·.isLargeTransfer) ∧
    m.largeTransfers.Sublist m.recentTransfers ∧
    ∀ t ∈ m.largeTransfers, t.isLargeTransfer = true := by
  have hproj : ∀ (ibp : TokenTransfer → Bool) (ti : TokenInfo)
      (md : Option TokenMarketData) (pu : Option ℚ)
      (pr : List TokenTransfer × List TokenTransfer),
      (assembleMetrics ibp ti md pu pr).largeTransfers = pr.2 ∧
      (assembleMetrics ibp ti md pu pr).recentTransfers = pr.1 :=
    fun _ _ _ _ _ => ⟨rfl, rfl⟩
  unfold fetchTokenData at h
  split at h
  · cases hti : env.tokenInfo with
    | none => rw [hti] at h; exact Except.noConfusion h
    | some ti =>
      rw [hti] at h
      cases hcb : env.currentBlock with
      | none => rw [hcb] at h; exact Except.noConfusion h
      | some cb =>
        rw [hcb] at h
        simp only [Except.ok.injEq] at h
        subst h
        rw [(hproj _ _ _ _ _).1, (hproj _ _ _ _ _).2, assembleTransfers_snd]
        refine ⟨rfl, List.filter_sublist _, ?_⟩
        intro t ht
        simpa using (List.mem_filter.mp ht).2
  · exact Except.noConfusion h

/-- The result fetchEnvOk produces: the sample descriptor with no market
data and empty transfer lists. -/
def tokenMetricsEmpty : TokenMetrics :=
  { tokenInfo := tokenInfoSample, marketData := none,
    recentTransfers := [], largeTransfers := [] }

/-- Witness for C9 at the concrete environment fetchEnvOk. -/
theorem claim9_large_is_filter_witness :
    tokenMetricsEmpty.largeTransfers =
      tokenMetricsEmpty.recentTransfers.filter (·.isLargeTransfer) ∧
    tokenMetricsEmpty.largeTransfers.Sublist tokenMetricsEmpty.recentTransfers ∧
    ∀ t ∈ tokenMetricsEmpty.largeTransfers, t.isLargeTransfer = true :=
  claim9_large_is_filter fetchEnvOk (fun _ => false) [] none tokenMetricsEmpty rfl

/-! ## Claim C4 -/

theorem scanChunksF_length_le (chunk : ℕ → ℕ → Option (List Event)) (toBlock K : ℕ)
    (hK : ∀ s e l, chunk s e = some l → l.length ≤ K) :
    ∀ fuel chunkStart acc, acc.length ≤ 2000 →
      (scanChunksF chunk toBlock fuel chunkStart acc).length ≤ 2000 + K := by
  intro fuel
  induction fuel with
  | zero =>
    intro a acc hacc
    simpa [scanChunksF] using le_trans hacc (by omega)
  | succ n ih =>
    intro a acc hacc
    rw [scanChunksF]
    by_cases hab : a < toBlock
    · rw [if_pos hab]
      cases hch : chunk a (min toBlock (a + 9999)) with
      | none => exact ih _ _ hacc
      | some events =>
        have hlen := hK _ _ _ hch
        dsimp only
        by_cases hbig : 2000 < (acc ++ events).length
        · rw [if_pos hbig]
          have : (acc ++ events).length = acc.length + events.length := by simp
          omega
        · rw [if_neg hbig]
          exact ih _ _ (by omega)
    · rw [if_neg hab]
      exact le_trans hacc (by omega)

/-- C4 (amended): the scan loop breaks only once the accumulator holds
STRICTLY more than 2000 events (a chunk landing exactly on 2000 does not
stop it), so the collected total can exceed 2000; it is bounded by 2000
plus the yield of a single chunk: if every successful chunk query returns
at most K events, the scan collects at most 2000 + K. -/
theorem claim4_cap_overrun_bound (chunk : ℕ → ℕ → Option (List Event))
    (fromBlock toBlock K : ℕ)
    (hK : ∀ s e l, chunk s e = some l → l.length ≤ K) :
    (scanChunks chunk fromBlock toBlock).length ≤ 2000 + K :=
  scanChunksF_length_le chunk toBlock K hK _ _ _ (by simp)

/-- A raw transfer event used by the scan evaluations. -/
def eventSample : Event :=
  { transactionHash := "0xh0", fromAddr := "0xaa", toAddr := "0xbb",
    value := 1, blockNumber := 0 }

/-- A chunk oracle whose first chunk returns exactly 2000 events and
every later chunk one more event. -/
def chunkOverCap : ℕ → ℕ → Option (List Event) :=
  fun s _ => if s = 0 then some (List.replicate 2000 eventSample) else some [eventSample]

/-- Counterexample to C4 as stated: scanning [0, 20000] with chunkOverCap
reaches exactly 2000 events after the first chunk, yet the scan does not
stop there: it processes the second chunk and collects 2001 events, so
the accumulated total exceeds the cap of 2000. -/
theorem claim4_counterexample :
    (scanChunks chunkOverCap 0 20000).length = 2001 := by
  have h2 : (20000 - 0 + 9999) / 10000 = 1 + 1 := by norm_num
  rw [scanChunks, h2, scanChunksF]
  norm_num [chunkOverCap, scanChunksF]

/-- Witness for C4 (amended) with every chunk returning one event. -/
theorem claim4_cap_overrun_bound_witness :
    (scanChunks (fun _ _ => some [eventSample]) 0 20000).length ≤ 2000 + 1 :=
  claim4_cap_overrun_bound _ 0 20000 1 (fun s e l h => by
    injection h with h2
    rw [← h2]
    decide)

/-! ## Claim C5 -/

theorem dvd_shift (c a b : ℕ) (h : a + c ≤ b) : c ∣ b - a ↔ c ∣ b - (a + c) := by
  constructor
  · intro hd
    have hsub := Nat.dvd_sub' hd (dvd_refl c)
    rwa [Nat.sub_sub] at hsub
  · intro hd
    have h2 : b - a = (b - (a + c)) + c := by omega
    rw [h2]
    exact dvd_add hd (dvd_refl c)

theorem chunkLoopF_mem (c toBlock : ℕ) :
    ∀ fuel a p, p ∈ chunkLoopF c toBlock fuel a →
      a ≤ p.1 ∧ p.1 < toBlock ∧ p.2 = min toBlock (p.1 + c - 1) := by
  intro fuel
  induction fuel with
  | zero => intro a p hp; simp [chunkLoopF] at hp
  | succ n ih =>
    intro a p hp
    rw [chunkLoopF] at hp
    by_cases hab : a < toBlock
    · rw [if_pos hab] at hp
      rcases List.mem_cons.mp hp with rfl | hp
      · exact ⟨le_rfl, hab, rfl⟩
      · obtain ⟨h1, h2, h3⟩ := ih (a + c) p hp
        exact ⟨by omega, h2, h3⟩
    · rw [if_neg hab] at hp
      simp at hp

theorem chunkLoopF_head (c toBlock : ℕ) :
    ∀ fuel a q, (chunkLoopF c toBlock fuel a).head? = some q →
      q = (a, min toBlock (a + c - 1)) ∧ a < toBlock := by
  intro fuel a q hq
  cases fuel with
  | zero => simp [chunkLoopF] at hq
  | succ n =>
    rw [chunkLoopF] at hq
    by_cases hab : a < toBlock
    · rw [if_pos hab] at hq
      simp only [List.head?_cons, Option.some.injEq] at hq
      exact ⟨hq.symm, hab⟩
    · rw [if_neg hab] at hq
      simp at hq

theorem chunkLoopF_cover (c toBlock : ℕ) (hc : 0 < c) :
    ∀ fuel a, toBlock - a ≤ fuel →
      ∀ x, (∃ p ∈ chunkLoopF c toBlock fuel a, p.1 ≤ x ∧ x ≤ p.2) ↔
        (a ≤ x ∧ x ≤ toBlock ∧ (x = toBlock → ¬ c ∣ (toBlock - a))) := by
  intro fuel
  induction fuel with
  | zero =>
    intro a hfuel x
    have hba : toBlock ≤ a := by omega
    constructor
    · rintro ⟨p, hp, -⟩
      simp [chunkLoopF] at hp
    · rintro ⟨h1, h2, h3⟩
      have hx : x = toBlock := by omega
      exact absurd (by rw [show toBlock - a = 0 by omega]; exact dvd_zero c) (h3 hx)
  | succ n ih =>
    intro a hfuel x
    by_cases hab : a < toBlock
    · rw [chunkLoopF, if_pos hab]
      have hstep : toBlock - (a + c) ≤ n := by omega
      constructor
      · rintro ⟨p, hp, hx1, hx2⟩
        rcases List.mem_cons.mp hp with rfl | hp
        · simp only at hx1 hx2
          refine ⟨hx1, le_trans hx2 (min_le_left _ _), ?_⟩
          intro hxb hdvd
          have hcap : toBlock ≤ a + c - 1 := by omega
          have hlt : toBlock - a < c := by omega
          have hpos : 0 < toBlock - a := by omega
          exact absurd (Nat.le_of_dvd hpos hdvd) (by omega)
        · obtain ⟨hy1, hy2, hy3⟩ := (ih (a + c) hstep x).mp ⟨p, hp, hx1, hx2⟩
          have hcb : a + c ≤ toBlock := by omega
          refine ⟨by omega, hy2, ?_⟩
          intro hxb hdvd
          exact hy3 hxb ((dvd_shift c a toBlock hcb).mp hdvd)
      · rintro ⟨h1, h2, h3⟩
        by_cases hxc : x < a + c
        · refine ⟨(a, min toBlock (a + c - 1)), List.mem_cons_self _ _, h1, ?_⟩
          simp only
          omega
        · have hcb : a + c ≤ toBlock := by omega
          obtain ⟨p, hp, hpx⟩ := (ih (a + c) hstep x).mpr
            ⟨by omega, h2, fun hxb hdvd => h3 hxb ((dvd_shift c a toBlock hcb).mpr hdvd)⟩
          exact ⟨p, List.mem_cons_of_mem _ hp, hpx⟩
    · rw [chunkLoopF, if_neg hab]
      constructor
      · rintro ⟨p, hp, -⟩
        simp at hp
      · rintro ⟨h1, h2, h3⟩
        have hx : x = toBlock := by omega
        exact absurd (by rw [show toBlock - a = 0 by omega]; exact dvd_zero c) (h3 hx)

theorem chunkLoopF_chain (c toBlock : ℕ) (hc : 0 < c) :
    ∀ fuel a, List.Chain' (fun p q => q.1 = p.2 + 1) (chunkLoopF c toBlock fuel a) := by
  intro fuel
  induction fuel with
  | zero => intro a; simp [chunkLoopF]
  | succ n ih =>
    intro a
    rw [chunkLoopF]
    by_cases hab : a < toBlock
    · rw [if_pos hab]
      refine List.chain'_cons'.mpr ⟨?_, ih (a + c)⟩
      intro q hq
      obtain ⟨rfl, hlt⟩ := chunkLoopF_head c toBlock n (a + c) q hq
      simp only
      omega
    · rw [if_neg hab]
      simp

theorem chunkLoopF_pairwise (c toBlock : ℕ) (hc : 0 < c) :
    ∀ fuel a, List.Pairwise (fun p q => p.2 < q.1) (chunkLoopF c toBlock fuel a) := by
  intro fuel
  induction fuel with
  | zero => intro a; simp [chunkLoopF]
  | succ n ih =>
    intro a
    rw [chunkLoopF]
    by_cases hab : a < toBlock
    · rw [if_pos hab]
      refine List.pairwise_cons.mpr ⟨?_, ih (a + c)⟩
      intro q hq
      obtain ⟨h1, h2, h3⟩ := chunkLoopF_mem c toBlock n (a + c) q hq
      simp only
      omega
    · rw [if_neg hab]
      simp

/-- C5 (amended): for a positive chunk size c and fromBlock ≤ toBlock,
the generated chunks are contiguous (each chunk starts one past the end
of the previous one), pairwise disjoint, and the first chunk starts at
fromBlock; they cover a block x exactly when fromBlock ≤ x ≤ toBlock and,
if x = toBlock, c does not divide toBlock - fromBlock. In particular the
claimed exact tiling of [fromBlock, toBlock] fails precisely when c
divides toBlock - fromBlock (including fromBlock = toBlock, where no
chunk is generated): the loop condition chunkStart < toBlock then leaves
the final block uncovered. -/
theorem claim5_chunk_tiling (c fromBlock toBlock : ℕ) (hc : 0 < c)
    (hab : fromBlock ≤ toBlock) :
    (∀ x, (∃ p ∈ chunkLoop c fromBlock toBlock, p.1 ≤ x ∧ x ≤ p.2) ↔
        (fromBlock ≤ x ∧ x ≤ toBlock ∧
         (x = toBlock → ¬ c ∣ (toBlock - fromBlock)))) ∧
    List.Chain' (fun p q => q.1 = p.2 + 1) (chunkLoop c fromBlock toBlock) ∧
    List.Pairwise (fun p q => p.2 < q.1) (chunkLoop c fromBlock toBlock) ∧
    (fromBlock < toBlock →
      (chunkLoop c fromBlock toBlock).head? =
        some (fromBlock, min toBlock (fromBlock + c - 1))) := by
  refine ⟨chunkLoopF_cover c toBlock hc _ fromBlock le_rfl,
          chunkLoopF_chain c toBlock hc _ fromBlock,
          chunkLoopF_pairwise c toBlock hc _ fromBlock, ?_⟩
  intro hlt
  rw [chunkLoop, show toBlock - fromBlock = (toBlock - fromBlock - 1) + 1 by omega,
      chunkLoopF, if_pos hlt]
  rfl

/-- Counterexample to C5 as stated: with chunk size 10 over the range
[0, 10] (c divides toBlock - fromBlock) the loop produces the single
chunk (0, 9), so the final block 10 lies in no chunk and the last chunk
end differs from toBlock. -/
theorem claim5_counterexample :
    chunkLoop 10 0 10 = [(0, 9)] ∧
    ¬ (∃ p ∈ chunkLoop 10 0 10, p.1 ≤ 10 ∧ 10 ≤ p.2) := by
  decide

/-- Witness for C5 (amended) at c = 10, range [0, 25]. -/
theorem claim5_chunk_tiling_witness :
    (∀ x, (∃ p ∈ chunkLoop 10 0 25, p.1 ≤ x ∧ x ≤ p.2) ↔
        (0 ≤ x ∧ x ≤ 25 ∧ (x = 25 → ¬ (10 ∣ (25 - 0))))) ∧
    List.Chain' (fun p q => q.1 = p.2 + 1) (chunkLoop 10 0 25) ∧
    List.Pairwise (fun p q => p.2 < q.1) (chunkLoop 10 0 25) ∧
    (0 < 25 → (chunkLoop 10 0 25).head? = some (0, min 25 (0 + 10 - 1))) :=
  claim5_chunk_tiling 10 0 25 (by decide) (by decide)

/-! ## Claim C10 -/

/-- Sum of the decimal-adjusted amounts of a transfer list. -/
def volumeOf (decimals : ℕ) (transfers : List TokenTransfer) : ℚ :=
  (transfers.map (fun t => toDecimalAmount t.value decimals)).sum

/-- Total decimal-adjusted volume of the large-flagged transfers of a
list. -/
def largeVolume (decimals : ℕ) (transfers : List TokenTransfer) : ℚ :=
  volumeOf decimals (transfers.filter (·.isLargeTransfer))

theorem offMarketFold_foldl (isBelowPrice : TokenTransfer → Bool) (d : ℕ) :
    ∀ (l : List TokenTransfer) (q a b : ℚ),
      l.foldl (offMarketStep isBelowPrice d) (JsNum.fin q, JsNum.fin a, JsNum.fin b) =
      (JsNum.fin (q + volumeOf d l),
       JsNum.fin (a + volumeOf d (l.filter (fun t => !isBelowPrice t))),
       JsNum.fin (b + volumeOf d (l.filter (fun t => isBelowPrice t)))) := by
  intro l
  induction l with
  | nil => intro q a b; simp [volumeOf]
  | cons t ts ih =>
    intro q a b
    rw [List.foldl_cons]
    by_cases hf : isBelowPrice t
    · rw [show offMarketStep isBelowPrice d (JsNum.fin q, JsNum.fin a, JsNum.fin b) t =
          (JsNum.fin (q + toDecimalAmount t.value d), JsNum.fin a,
           JsNum.fin (b + toDecimalAmount t.value d)) from by
        simp [offMarketStep, hf, JsNum.fin_add]]
      rw [ih]
      simp only [Prod.mk.injEq, JsNum.fin.injEq, volumeOf, List.filter_cons, hf,
        List.map_cons, List.sum_cons, Bool.not_true, Bool.false_eq_true, if_false,
        if_true]
      refine ⟨by ring_nf, by ring_nf, by ring_nf⟩
    · rw [show offMarketStep isBelowPrice d (JsNum.fin q, JsNum.fin a, JsNum.fin b) t =
          (JsNum.fin (q + toDecimalAmount t.value d),
           JsNum.fin (a + toDecimalAmount t.value d), JsNum.fin b) from by
        simp [offMarketStep, hf, JsNum.fin_add]]
      rw [ih]
      simp only [Prod.mk.injEq, JsNum.fin.injEq, volumeOf, List.filter_cons, hf,
        List.map_cons, List.sum_cons, Bool.not_false, Bool.false_eq_true, if_false,
        if_true]
      refine ⟨by ring_nf, by ring_nf, by ring_nf⟩

theorem volumeOf_filter_split (isBelowPrice : TokenTransfer → Bool) (d : ℕ) :
    ∀ l : List TokenTransfer,
      volumeOf d (l.filter (fun t => !isBelowPrice t)) +
        volumeOf d (l.filter (fun t => isBelowPrice t)) = volumeOf d l := by
  intro l
  induction l with
  | nil => simp [volumeOf]
  | cons t ts ih =>
    by_cases hf : isBelowPrice t <;>
      · simp only [volumeOf, List.filter_cons, hf, Bool.not_true, Bool.not_false,
          Bool.false_eq_true, if_false, if_true, List.map_cons, List.sum_cons] at ih ⊢
        linarith [ih]

theorem offMarketFold_components (isBelowPrice : TokenTransfer → Bool) (d : ℕ)
    (l : List TokenTransfer) :
    offMarketFold isBelowPrice d l =
      (JsNum.fin (volumeOf d l),
       JsNum.fin (volumeOf d (l.filter (fun t => !isBelowPrice t))),
       JsNum.fin (volumeOf d (l.filter (fun t => isBelowPrice t)))) := by
  rw [offMarketFold, offMarketFold_foldl]
  simp

/-- C10: in analyzeOffMarketSales every large transfer is added to
exactly one of the two buckets, so for every below-market oracle, every
non-empty transfer list and every positive price, the above-price and
below-price volumes sum to the total large-transfer volume, and the
reported USD volume is that total times the price. -/
theorem claim10_bucket_identity (isBelowPrice : TokenTransfer → Bool)
    (transfers : List TokenTransfer) (tokenInfo : TokenInfo) (currentPrice : ℚ)
    (hne : transfers ≠ []) (hp : 0 < currentPrice) :
    (offMarketFold isBelowPrice tokenInfo.decimals
        (transfers.filter (·.isLargeTransfer))).2.1.add
      (offMarketFold isBelowPrice tokenInfo.decimals
        (transfers.filter (·.isLargeTransfer))).2.2 =
      (offMarketFold isBelowPrice tokenInfo.decimals
        (transfers.filter (·.isLargeTransfer))).1 ∧
    (offMarketFold isBelowPrice tokenInfo.decimals
        (transfers.filter (·.isLargeTransfer))).1 =
      JsNum.fin (largeVolume tokenInfo.decimals transfers) ∧
    (analyzeOffMarketSales isBelowPrice transfers tokenInfo currentPrice).volumeUSD =
      JsNum.fin (largeVolume tokenInfo.decimals transfers * currentPrice) := by
  have hcomp := offMarketFold_components isBelowPrice tokenInfo.decimals
    (transfers.filter (·.isLargeTransfer))
  have hsplit := volumeOf_filter_split isBelowPrice tokenInfo.decimals
    (transfers.filter (·.isLargeTransfer))
  refine ⟨?_, ?_, ?_⟩
  · rw [hcomp]
    simp only [JsNum.fin_add, JsNum.fin.injEq]
    linarith [hsplit]
  · rw [hcomp, largeVolume]
  · have hguard : (transfers.isEmpty || decide (currentPrice ≤ 0)) = false := by
      simp [List.isEmpty_iff, hne, not_le.mpr hp]
    rw [analyzeOffMarketSales, if_neg (by simp [hguard])]
    simp only [hcomp, JsNum.fin_mul, largeVolume]

/-- Witness for C10 at a one-element transfer list, the sample descriptor
and price one. -/
theorem claim10_bucket_identity_witness :
    (offMarketFold (fun _ => false) tokenInfoSample.decimals
        ([transferValueOne].filter (·.isLargeTransfer))).2.1.add
      (offMarketFold (fun _ => false) tokenInfoSample.decimals
        ([transferValueOne].filter (·.isLargeTransfer))).2.2 =
      (offMarketFold (fun _ => false) tokenInfoSample.decimals
        ([transferValueOne].filter (·.isLargeTransfer))).1 ∧
    (offMarketFold (fun _ => false) tokenInfoSample.decimals
        ([transferValueOne].filter (·.isLargeTransfer))).1 =
      JsNum.fin (largeVolume tokenInfoSample.decimals [transferValueOne]) ∧
    (analyzeOffMarketSales (fun _ => false) [transferValueOne]
        tokenInfoSample 1).volumeUSD =
      JsNum.fin (largeVolume tokenInfoSample.decimals [transferValueOne] * 1) :=
  claim10_bucket_identity (fun _ => false) [transferValueOne] tokenInfoSample 1
    (by decide) (by decide)

end TokenDashboard
